import Mathlib

set_option maxRecDepth 40000
set_option maxHeartbeats 2000000

deriving instance DecidableEq for Except

/-!
Shallow embedding of the `msgime` package (CFB/OLE2 MIME-type sniffer).

Byte buffers are modelled as `List Nat` whose elements are intended to be
bytes (`< 256`); Go's `uint16`/`uint64` arithmetic is modelled on `Nat`
with explicit `% 2 ^ 16` / `% 2 ^ 64` at every operation that can wrap.
Go slicing `b[o : o+s]` is modelled as `(b.drop o).take s`; fallible
operations return `Except String`.  The file source behind `os.File` is
modelled as the full byte list of the file together with an explicit
current position, threaded through `read` in state-passing style.
`read` takes its offset as an `Int`, because the source passes the
`uint64` sector position through an `int64` cast: `file.Seek` fails on a
negative offset, its error is discarded by the source, and `io.ReadFull`
then reads at whatever position the file was left at.
-/

namespace Msgime

/-- `fieldPosition` describes the position of the fields in a structure
(offset and size in bytes), as in the Go struct of the same name. -/
structure fieldPosition where
  offset : Nat
  size : Nat
deriving DecidableEq, Repr

/-- `uuidMimeTypeMap` maps the CLSID of the root directory to the
corresponding mimetype (Go map literal, modelled as an association list). -/
def uuidMimeTypeMap : List (String × String) :=
  [("00020906-0000-0000-c000-000000000046", "application/msword"),
   ("00020820-0000-0000-c000-000000000046", "application/vnd.ms-excel"),
   ("00020810-0000-0000-c000-000000000046", "application/vnd.ms-excel")]

/-- `validFileIdentifiers`: the two magic prefixes accepted for a compound
file (standard CFB magic and the old beta-2 magic). -/
def validFileIdentifiers : List (List Nat) :=
  [[0xd0, 0xcf, 0x11, 0xe0, 0xa1, 0xb1, 0x1a, 0xe1],
   [0x0e, 0x11, 0xfc, 0x0d, 0xd0, 0xcf, 0x11, 0xe0]]

/-- `headerMap` describes the structure of the 512-byte header. -/
def headerMap : List (String × fieldPosition) :=
  [("FileIdentifier", ⟨0, 8⟩),
   ("UUIDOfFile", ⟨8, 16⟩),
   ("RevisionNumber", ⟨24, 2⟩),
   ("VersionNumber", ⟨26, 2⟩),
   ("ByteOrderIdentifier", ⟨28, 2⟩),
   ("SizeOfSector", ⟨30, 2⟩),
   ("SizeOfShortSector", ⟨32, 2⟩),
   ("Reserved", ⟨34, 10⟩),
   ("TotalSectors", ⟨44, 4⟩),
   ("FirstSectorID", ⟨48, 4⟩),
   ("Reserved1", ⟨52, 4⟩),
   ("MinSizeOfStdStream", ⟨56, 4⟩),
   ("FirstShortSectorID", ⟨60, 4⟩),
   ("TotalSectorsUsedForShortSectorAllocationTable", ⟨64, 4⟩),
   ("FistMasterSectorID", ⟨68, 4⟩),
   ("TotalSectorsUsedForMasterSectorAllocationTable", ⟨72, 4⟩),
   ("FirstPartOfMasterAllocationTable", ⟨76, 436⟩)]

/-- `directoryMap` describes the structure of a 128-byte directory entry. -/
def directoryMap : List (String × fieldPosition) :=
  [("EntryName", ⟨0, 64⟩),
   ("SizeOfEntryNameInCharacters", ⟨64, 2⟩),
   ("Type", ⟨66, 1⟩),
   ("NodeColorr", ⟨67, 1⟩),
   ("DirIDOfLeftChild", ⟨68, 4⟩),
   ("DirIDOfRighttChild", ⟨72, 4⟩),
   ("DirIDOfRoot", ⟨76, 4⟩),
   ("CLSID", ⟨80, 16⟩),
   ("UserFlags", ⟨96, 4⟩),
   ("EntryCreationTimpestamp", ⟨100, 8⟩),
   ("EntryModificationTimpestamp", ⟨108, 8⟩),
   ("FistSectorID", ⟨116, 4⟩),
   ("TotalStreamSizeInBytes", ⟨120, 4⟩),
   ("Reserved", ⟨124, 4⟩)]

/-- `defaultCompoundFile`: filename plus the two cached byte regions. -/
structure defaultCompoundFile where
  filename : String
  header : List Nat
  rootDirectoryEntry : List Nat
deriving DecidableEq, Repr

/-- `getValueFromHeader`: slice `header[offset : offset+size]` of the named
field, or the nil slice when the field name is unknown. -/
def getValueFromHeader (cFile : defaultCompoundFile) (fieldname : String) : List Nat :=
  match headerMap.lookup fieldname with
  | some fieldInfo => (cFile.header.drop fieldInfo.offset).take fieldInfo.size
  | none => []

/-- `getValueFromRootDirectory`: slice of the named directory field, or the
nil slice when the field name is unknown. -/
def getValueFromRootDirectory (cFile : defaultCompoundFile) (fieldname : String) : List Nat :=
  match directoryMap.lookup fieldname with
  | some fieldInfo => (cFile.rootDirectoryEntry.drop fieldInfo.offset).take fieldInfo.size
  | none => []

/-- `isLittleEndian`: first byte of the `ByteOrderIdentifier` field equals
`0xFE` (Go indexes `byteOrder[0]`; on a 512-byte header the slice is
nonempty, and the model reads its head). -/
def isLittleEndian (cFile : defaultCompoundFile) : Bool :=
  (getValueFromHeader cFile "ByteOrderIdentifier").headD 0 == 0xFE

/-- One shift-and-or step of the Go decoding loops, at word width `2 ^ w`:
the accumulator is shifted left 8 bits (wrapping at the word width, as the
Go `uint` shift does) and the next byte is or-ed in. -/
def decodeStep (w returnValue b : Nat) : Nat :=
  ((returnValue <<< 8) % 2 ^ w) ||| b

/-- `decodeValueAsUInt64`: accumulate bytes into a `uint64`, processing the
slice end-to-start when little-endian and start-to-end when big-endian. -/
def decodeValueAsUInt64 (littleEndian : Bool) (value : List Nat) : Nat :=
  (if littleEndian then value.reverse else value).foldl (decodeStep 64) 0

/-- `decodeValueAsUInt16`: same loop but with a `uint16` accumulator, so
every shift truncates to 16 bits. -/
def decodeValueAsUInt16 (littleEndian : Bool) (value : List Nat) : Nat :=
  (if littleEndian then value.reverse else value).foldl (decodeStep 16) 0

/-- Lowercase hexadecimal rendering of `n`, zero-padded on the left to
`width` digits: the model of Go `fmt.Sprintf` with a `%0<width>x` verb. -/
def hexPad (width n : Nat) : String :=
  let s := String.mk (Nat.toDigits 16 n)
  String.mk (List.replicate (width - s.length) '0') ++ s

/-- `decodeValueAsUUID`: Microsoft mixed-endian CLSID decoding.  The
`littleEndian` argument is accepted and ignored, exactly as in the source:
the first three components are always decoded little-endian and the last
two big-endian, then printed as `%08x-%04x-%04x-%04x-%012x`. -/
def decodeValueAsUUID (littleEndian : Bool) (value : List Nat) : String :=
  let bytes1To4 := decodeValueAsUInt64 true (value.take 4)
  let bytes5To6 := decodeValueAsUInt64 true ((value.drop 4).take 2)
  let bytes7To8 := decodeValueAsUInt64 true ((value.drop 6).take 2)
  let bytes9To10 := decodeValueAsUInt64 false ((value.drop 8).take 2)
  let bytes11To16 := decodeValueAsUInt64 false ((value.drop 10).take 6)
  hexPad 8 bytes1To4 ++ "-" ++ hexPad 4 bytes5To6 ++ "-" ++ hexPad 4 bytes7To8 ++
    "-" ++ hexPad 4 bytes9To10 ++ "-" ++ hexPad 12 bytes11To16

/-- `GetMimeType`: decode the root directory CLSID and look it up in
`uuidMimeTypeMap`, defaulting to `application/octet-stream`. -/
def GetMimeType (cFile : defaultCompoundFile) : String :=
  let clsID := getValueFromRootDirectory cFile "CLSID"
  let uuID := decodeValueAsUUID (isLittleEndian cFile) clsID
  match uuidMimeTypeMap.lookup uuID with
  | some mimeType => mimeType
  | none => "application/octet-stream"

/-- `validateFileIdentifier`: the Go double loop scans the two known
identifiers and accepts iff one of them has the same length as the input,
the input is nonempty, and all bytes agree (the inner loop only sets
`valid` when it reaches the last index, so an empty input never matches). -/
def validateFileIdentifier (fileIdentifier : List Nat) : Bool :=
  validFileIdentifiers.any fun vid =>
    vid.length == fileIdentifier.length && !fileIdentifier.isEmpty &&
      vid == fileIdentifier

/-- `validateRootDirectoryType`: the single type byte must equal `5`
(Go indexes `rootDirectoryType[0]`; the model reads the head). -/
def validateRootDirectoryType (rootDirectoryType : List Nat) : Bool :=
  rootDirectoryType.headD 0 == 5

/-- The value of a `uint64` reinterpreted as an `int64`, modelling the
`int64(sectorPosition)` cast at the root-directory read. -/
def uint64ToInt64 (n : Nat) : Int :=
  if n % 2 ^ 64 < 2 ^ 63 then ((n % 2 ^ 64 : Nat) : Int)
  else ((n % 2 ^ 64 : Nat) : Int) - 2 ^ 64

/-- The position `file.Seek(offset, io.SeekStart)` leaves the file at,
given the current position `pos`: a nonnegative offset moves the position
there (seeking past EOF succeeds); a negative offset makes `Seek` fail,
and since the source discards the returned error, the position simply
stays where it was. -/
def seekTo (pos : Nat) (offset : Int) : Nat :=
  if 0 ≤ offset then offset.toNat else pos

/-- Model of `read(file, offset, size)`: `Seek` to `offset` (with the
discarded-error semantics of `seekTo`), then `io.ReadFull` into a
`size`-byte buffer, which yields the bytes at the resulting position and
fails exactly when fewer than `size` bytes are available there.  Returns
the bytes together with the file position after the read. -/
def read (content : List Nat) (pos : Nat) (offset : Int) (size : Nat) :
    Except String (List Nat × Nat) :=
  if seekTo pos offset + size ≤ content.length then
    Except.ok ((content.drop (seekTo pos offset)).take size, seekTo pos offset + size)
  else
    Except.error "Unable to read. File may be corrupted or not a compound file"

/-- The body of the Go `for i := y; i > 1;` loop inside `calcPower`,
written with an explicit fuel so that the definition is structurally
recursive and kernel-computable.  Each iteration tests `y % 2` (the Go
code tests `y`, not `i`), either squaring the multiplier and halving `i`
or multiplying it into the result and decrementing `i`; all products wrap
at `2 ^ 64`.  `calcPowerLoop_fuel` below shows that any fuel `≥ i` yields
the same value, i.e. the fuel is not a semantic truncation of the loop. -/
def calcPowerLoop (fuel y i result multiplier : Nat) : Nat :=
  match fuel with
  | 0 => (result * multiplier) % 2 ^ 64
  | fuel + 1 =>
    if 1 < i then
      if y % 2 == 0 then
        calcPowerLoop fuel y (i / 2) result ((multiplier * multiplier) % 2 ^ 64)
      else
        calcPowerLoop fuel y (i - 1) ((result * multiplier) % 2 ^ 64) multiplier
    else
      (result * multiplier) % 2 ^ 64

/-- `calcPower`: the source's integer exponentiation routine (with its
`y % 2` test), entered with `result = 1` and `multiplier = x`.  The loop
runs at most `i = y` iterations, so fuel `y` is sufficient. -/
def calcPower (x y : Nat) : Nat :=
  if y == 0 then 1 else calcPowerLoop y y y 1 x

/-- `getSectorPosition`: `512 + uint64(sectorID) * calcPower(2, sectorSize)`
in `uint64` arithmetic. -/
def getSectorPosition (sectorID sectorSize : Nat) : Nat :=
  (512 + sectorID * calcPower 2 sectorSize) % 2 ^ 64

/-- `NewCompoundFile`: read the 512-byte header (from position 0 of a
freshly opened file), validate the magic, decode the first sector id and
sector size, read the 128-byte root directory entry at the `int64` cast
of the computed `uint64` sector position — the header read left the file
position at 512, which is where a failed negative `Seek` leaves it — and
validate its type. -/
def NewCompoundFile (filepath : String) (content : List Nat) :
    Except String defaultCompoundFile :=
  match read content 0 0 512 with
  | Except.error e => Except.error e
  | Except.ok (bytesRead, pos1) =>
    let cfile : defaultCompoundFile :=
      { filename := filepath, header := bytesRead, rootDirectoryEntry := [] }
    if !validateFileIdentifier (getValueFromHeader cfile "FileIdentifier") then
      Except.error "Invalid File Identtifier"
    else
      let littleEndian := isLittleEndian cfile
      let sectorID := decodeValueAsUInt16 littleEndian (getValueFromHeader cfile "FirstSectorID")
      let sectorSize := decodeValueAsUInt16 littleEndian (getValueFromHeader cfile "SizeOfSector")
      let sectorPosition := getSectorPosition sectorID sectorSize
      match read content pos1 (uint64ToInt64 sectorPosition) 128 with
      | Except.error e => Except.error e
      | Except.ok (rootBytes, _) =>
        let cfile2 : defaultCompoundFile := { cfile with rootDirectoryEntry := rootBytes }
        if !validateRootDirectoryType (getValueFromRootDirectory cfile2 "Type") then
          Except.error "Invalid type found while validating root directory. Not a compound file"
        else
          Except.ok cfile2

/-- Statement abbreviation: the byte-order flag of a source, exactly as
`NewCompoundFile` computes it from the 512-byte header prefix. -/
def headerLE (content : List Nat) : Bool :=
  (((content.take 512).drop 28).take 2).headD 0 == 0xFE

/-- Statement abbreviation: the root directory sector position that
`NewCompoundFile` computes from the `FirstSectorID` and `SizeOfSector`
header fields of a source. -/
def rootSectorPos (content : List Nat) : Nat :=
  getSectorPosition
    (decodeValueAsUInt16 (headerLE content) (((content.take 512).drop 48).take 4))
    (decodeValueAsUInt16 (headerLE content) (((content.take 512).drop 30).take 2))

/-- Statement abbreviation: the position at which the root-directory read
actually happens.  When the computed `uint64` sector position fits in a
nonnegative `int64` (is below `2 ^ 63`) the `Seek` moves there; otherwise
the cast is negative, the `Seek` fails with its error discarded, and the
read happens at position 512, where the header read left the file. -/
def effectiveRootPos (content : List Nat) : Nat :=
  if rootSectorPos content < 2 ^ 63 then rootSectorPos content else 512

/-- The big-endian positional value of a byte string: each byte is weighted
by `256` to the number of bytes after it. -/
def beVal : List Nat → Nat
  | [] => 0
  | b :: rest => b * 256 ^ rest.length + beVal rest

/-- The little-endian positional value of a byte string: the head is the
least significant byte. -/
def leVal : List Nat → Nat
  | [] => 0
  | b :: rest => b + 256 * leVal rest

/-- Modelled from the spec: the canonical lowercase hex-with-dashes UUID
string, reading components 1-3 (bytes 0-3, 4-5, 6-7) as little-endian
positional values and components 4-5 (bytes 8-9, 10-15) as big-endian
positional values, printed as 8, 4, 4, 4 and 12 hex digits. -/
def specCanonicalUUID (value : List Nat) : String :=
  hexPad 8 (leVal (value.take 4)) ++ "-" ++ hexPad 4 (leVal ((value.drop 4).take 2)) ++ "-" ++
    hexPad 4 (leVal ((value.drop 6).take 2)) ++ "-" ++ hexPad 4 (beVal ((value.drop 8).take 2)) ++
    "-" ++ hexPad 12 (beVal ((value.drop 10).take 6))

/-- The spec's end-to-end synthetic sample: valid magic, little-endian
flag `FE FF`, sector-size exponent 9, first sector index 0, and a root
directory entry at offset 512 with type byte 5 and the MS Word CLSID. -/
def sampleWordFile : List Nat :=
  [0xd0, 0xcf, 0x11, 0xe0, 0xa1, 0xb1, 0x1a, 0xe1] ++ List.replicate 20 0 ++
    [0xFE, 0xFF] ++ [9, 0] ++ List.replicate 16 0 ++ [0, 0, 0, 0] ++ List.replicate 460 0 ++
    (List.replicate 66 0 ++ [5] ++ List.replicate 13 0 ++
      [0x06, 0x09, 0x02, 0x00, 0x00, 0x00, 0x00, 0x00,
       0xC0, 0x00, 0x00, 0x00, 0x00, 0x00, 0x00, 0x46] ++
      List.replicate 32 0)

/-- The handle `NewCompoundFile` produces for `sampleWordFile`. -/
def sampleWordHandle : defaultCompoundFile :=
  { filename := "sample.doc", header := sampleWordFile.take 512,
    rootDirectoryEntry := (sampleWordFile.drop 512).take 128 }

/-- A 640-byte source whose header declares sector-size exponent 65 and
first sector index 1, so the true root sector offset `512 + 2 ^ 65` is far
beyond the file, while the `uint64` computation wraps to 512. -/
def overflowFile : List Nat :=
  [0xd0, 0xcf, 0x11, 0xe0, 0xa1, 0xb1, 0x1a, 0xe1] ++ List.replicate 20 0 ++
    [0xFE, 0xFF] ++ [65, 0] ++ List.replicate 16 0 ++ [1, 0, 0, 0] ++ List.replicate 460 0 ++
    (List.replicate 66 0 ++ [5] ++ List.replicate 61 0)

/-- A 640-byte source whose header declares sector-size exponent 63 and
first sector index 1: the computed root sector position is `512 + 2 ^ 63`,
whose `int64` cast is negative, so the `Seek` fails silently and the root
entry is read at the stale position 512. -/
def negOffsetFile : List Nat :=
  [0xd0, 0xcf, 0x11, 0xe0, 0xa1, 0xb1, 0x1a, 0xe1] ++ List.replicate 20 0 ++
    [0xFE, 0xFF] ++ [63, 0] ++ List.replicate 16 0 ++ [1, 0, 0, 0] ++ List.replicate 460 0 ++
    (List.replicate 66 0 ++ [5] ++ List.replicate 61 0)

/-! ### Helper lemmas -/

theorem beVal_append (u v : List Nat) :
    beVal (u ++ v) = beVal u * 256 ^ v.length + beVal v := by
  induction u with
  | nil => simp [beVal]
  | cons b t ih =>
    simp only [List.cons_append, beVal, List.append_eq, List.length_append, ih]
    ring

theorem beVal_reverse (l : List Nat) : beVal l.reverse = leVal l := by
  induction l with
  | nil => rfl
  | cons b t ih =>
    simp only [List.reverse_cons, beVal_append, ih, beVal, leVal, List.length_cons,
      List.length_nil, pow_one, pow_zero]
    ring

theorem lor256 (k b : Nat) (hb : b < 256) : (256 * k) ||| b = 256 * k + b := by
  have h : 2 ^ 8 * k + b = 2 ^ 8 * k ||| b :=
    Nat.mul_add_lt_is_or (i := 8) (by omega) k
  norm_num at h
  exact h.symm

theorem foldl_decodeStep (w : Nat) (l : List Nat) : ∀ a : Nat,
    (∀ b ∈ l, b < 256) → a < 2 ^ (w - 8 * l.length) → 8 * l.length ≤ w →
    l.foldl (decodeStep w) a = a * 256 ^ l.length + beVal l := by
  induction l with
  | nil => intro a _ _ _; simp [beVal]
  | cons x t ih =>
    intro a hb ha hl
    have hx : x < 256 := hb x (List.mem_cons_self x t)
    have hl8 : 8 * t.length + 8 ≤ w := by
      simpa [List.length_cons, Nat.mul_add] using hl
    have hpow : 2 ^ (w - 8 * (t.length + 1)) * 256 = 2 ^ (w - 8 * t.length) := by
      rw [show (256 : Nat) = 2 ^ 8 from rfl, ← Nat.pow_add]
      congr 1
      omega
    have ha' : a * 256 < 2 ^ (w - 8 * t.length) := by
      rw [← hpow]
      have := ha
      simp only [List.length_cons] at this
      exact Nat.mul_lt_mul_of_lt_of_le this (le_refl 256) (by omega)
    have hstep : decodeStep w a x = 256 * a + x := by
      unfold decodeStep
      rw [Nat.shiftLeft_eq]
      norm_num
      rw [Nat.mod_eq_of_lt (lt_of_lt_of_le ha' (Nat.pow_le_pow_right (by omega) (by omega)))]
      rw [Nat.mul_comm a 256, lor256 a x hx]
    have hbound : 256 * a + x < 2 ^ (w - 8 * t.length) := by
      have h1 : a + 1 ≤ 2 ^ (w - 8 * (t.length + 1)) := by
        simp only [List.length_cons] at ha
        omega
      have h2 : (a + 1) * 256 ≤ 2 ^ (w - 8 * t.length) := by
        rw [← hpow]
        exact Nat.mul_le_mul_right 256 h1
      omega
    simp only [List.foldl_cons, hstep]
    rw [ih (256 * a + x) (fun b h => hb b (List.mem_cons_of_mem x h)) hbound (by omega)]
    simp only [beVal, List.length_cons]
    ring

theorem decodeValueAsUInt64_false_eq (bs : List Nat)
    (hb : ∀ b ∈ bs, b < 256) (hl : bs.length ≤ 8) :
    decodeValueAsUInt64 false bs = beVal bs := by
  have h := foldl_decodeStep 64 bs 0 hb (Nat.pos_pow_of_pos _ (by omega)) (by omega)
  simpa [decodeValueAsUInt64] using h

theorem decodeValueAsUInt64_true_eq (bs : List Nat)
    (hb : ∀ b ∈ bs, b < 256) (hl : bs.length ≤ 8) :
    decodeValueAsUInt64 true bs = leVal bs := by
  have h := foldl_decodeStep 64 bs.reverse 0
    (fun b hm => hb b (List.mem_reverse.mp hm))
    (by rw [List.length_reverse]; exact Nat.pos_pow_of_pos _ (by omega))
    (by rw [List.length_reverse]; omega)
  simpa [decodeValueAsUInt64, beVal_reverse] using h

theorem decodeStep16_eq (a b : Nat) (hb : b < 256) :
    decodeStep 16 a b = 256 * (a % 256) + b := by
  unfold decodeStep
  rw [Nat.shiftLeft_eq]
  have h : a * 2 ^ 8 % 2 ^ 16 = 256 * (a % 256) := by
    rw [Nat.mul_comm a (2 ^ 8), show (2 ^ 16 : Nat) = 2 ^ 8 * 2 ^ 8 from rfl,
      Nat.mul_mod_mul_left]
    norm_num
  rw [h, lor256 _ _ hb]

theorem headD_take (l : List Nat) (n : Nat) : (l.take (n + 1)).headD 0 = l.headD 0 := by
  cases l <;> simp

/-- Any fuel of at least `i` computes the same value: the fuel in
`calcPowerLoop` is not a semantic truncation of the Go loop, whose
iteration count never exceeds the initial `i`. -/
theorem calcPowerLoop_fuel (y : Nat) : ∀ fuel fuel' i r m, i ≤ fuel → i ≤ fuel' →
    calcPowerLoop fuel y i r m = calcPowerLoop fuel' y i r m := by
  intro fuel
  induction fuel with
  | zero =>
    intro fuel' i r m h h'
    have hi : i = 0 := Nat.le_zero.mp h
    subst hi
    cases fuel' with
    | zero => rfl
    | succ f => simp [calcPowerLoop]
  | succ f ih =>
    intro fuel' i r m h h'
    by_cases hi : 1 < i
    · obtain ⟨f', rfl⟩ : ∃ f', fuel' = f' + 1 := ⟨fuel' - 1, by omega⟩
      simp only [calcPowerLoop, if_pos hi]
      by_cases hy : (y % 2 == 0) = true
      · rw [if_pos hy, if_pos hy]
        exact ih f' (i / 2) _ _ (by omega) (by omega)
      · rw [if_neg hy, if_neg hy]
        exact ih f' (i - 1) _ _ (by omega) (by omega)
    · cases fuel' <;> simp [calcPowerLoop, hi]

/-- For odd `y` the loop never squares, so it computes
`result * multiplier ^ i` modulo `2 ^ 64`. -/
theorem calcPowerLoop_odd (y : Nat) (hy : y % 2 = 1) : ∀ fuel i r m, 1 ≤ i → i ≤ fuel →
    calcPowerLoop fuel y i r m = r * m ^ i % 2 ^ 64 := by
  intro fuel
  induction fuel with
  | zero => intro i r m h1 h2; exact absurd h2 (by omega)
  | succ f ih =>
    intro i r m h1 h2
    by_cases hi : 1 < i
    · have hodd : ¬ ((y % 2 == 0) = true) := by simp [hy]
      simp only [calcPowerLoop, if_pos hi, if_neg hodd]
      rw [ih (i - 1) (r * m % 2 ^ 64) m (by omega) (by omega)]
      rw [Nat.mod_mul_mod]
      congr 1
      rw [mul_assoc]
      congr 1
      rw [← pow_succ']
      congr 1
      omega
    · have h1' : i = 1 := by omega
      subst h1'
      simp [calcPowerLoop, pow_one]

theorem calcPower_odd (x y : Nat) (hy : y % 2 = 1) :
    calcPower x y = x ^ y % 2 ^ 64 := by
  unfold calcPower
  have h0 : ¬ ((y == 0) = true) := by simp; omega
  rw [if_neg h0]
  rw [calcPowerLoop_odd y hy y y 1 x (by omega) (le_refl y)]
  rw [one_mul]

theorem lookup_bound (l : List (String × fieldPosition)) (bound : Nat)
    (hall : l.all (fun p => decide (p.2.offset + p.2.size ≤ bound)) = true)
    {name : String} {fi : fieldPosition} (h : l.lookup name = some fi) :
    fi.offset + fi.size ≤ bound := by
  induction l with
  | nil => simp at h
  | cons p t ih =>
    obtain ⟨k, v⟩ := p
    simp only [List.all_cons, Bool.and_eq_true, decide_eq_true_eq] at hall
    rw [List.lookup_cons] at h
    cases hk : (name == k) with
    | true =>
      rw [hk] at h
      simp only [Option.some.injEq] at h
      subst h
      exact hall.1
    | false =>
      rw [hk] at h
      exact ih hall.2 h

/-! ### Claim theorems -/

/-- C1: the claim says `calcPower(2, e) = 2 ^ e` for every exponent `0-31`
and hence `getSectorPosition(id, e) = 512 + id * 2 ^ e`.  The loop tests
`y % 2` instead of `i % 2`, so for the even non-power-of-two exponent 6 it
squares the multiplier while halving `i` and returns `16`, not `64`:
`getSectorPosition(1, 6)` is `528` instead of the intended `576`. -/
theorem calcPower_even_exponent_bug :
    calcPower 2 6 = 16 ∧ calcPower 2 6 ≠ 2 ^ 6 ∧
    getSectorPosition 1 6 = 528 ∧ 512 + 1 * 2 ^ 6 = 576 := by decide

/-- C6: `decodeValueAsUUID`, with either flag value, maps the reference
16-byte vector `00 09 02 00 00 00 00 00 C0 00 00 00 00 00 00 46` to the
canonical string `00020900-0000-0000-c000-000000000046`. -/
theorem decodeValueAsUUID_reference_vector :
    decodeValueAsUUID true
        [0x00, 0x09, 0x02, 0x00, 0x00, 0x00, 0x00, 0x00,
         0xC0, 0x00, 0x00, 0x00, 0x00, 0x00, 0x00, 0x46]
      = "00020900-0000-0000-c000-000000000046" ∧
    decodeValueAsUUID false
        [0x00, 0x09, 0x02, 0x00, 0x00, 0x00, 0x00, 0x00,
         0xC0, 0x00, 0x00, 0x00, 0x00, 0x00, 0x00, 0x46]
      = "00020900-0000-0000-c000-000000000046" := by decide

/-- C9: decoding a 1-to-8 byte slice little-endian equals decoding its
byte-reversal big-endian. -/
theorem decodeValueAsUInt64_endian_symmetry (bs : List Nat)
    (h1 : 1 ≤ bs.length) (h8 : bs.length ≤ 8) :
    decodeValueAsUInt64 true bs = decodeValueAsUInt64 false bs.reverse := by
  simp [decodeValueAsUInt64]

/-- Witness for C9 at the concrete slice `[1, 2, 3]`. -/
theorem decodeValueAsUInt64_endian_symmetry_witness :
    decodeValueAsUInt64 true [1, 2, 3] = decodeValueAsUInt64 false ([1, 2, 3] : List Nat).reverse :=
  decodeValueAsUInt64_endian_symmetry [1, 2, 3] (by decide) (by decide)

/-- C4: `validateFileIdentifier` accepts exactly the two 8-byte magic
sequences; every other byte slice, of any length, is rejected. -/
theorem validateFileIdentifier_iff_magic (fileIdentifier : List Nat) :
    validateFileIdentifier fileIdentifier = true ↔
      (fileIdentifier = [0xd0, 0xcf, 0x11, 0xe0, 0xa1, 0xb1, 0x1a, 0xe1] ∨
       fileIdentifier = [0x0e, 0x11, 0xfc, 0x0d, 0xd0, 0xcf, 0x11, 0xe0]) := by
  constructor
  · intro h
    unfold validateFileIdentifier validFileIdentifiers at h
    simp only [List.any_cons, List.any_nil, Bool.or_false, Bool.or_eq_true,
      Bool.and_eq_true, beq_iff_eq] at h
    rcases h with ⟨-, h⟩ | ⟨-, h⟩
    · exact Or.inl h.symm
    · exact Or.inr h.symm
  · rintro (rfl | rfl) <;> decide

/-- C8: the 4-byte `FirstSectorID` field is decoded through the 16-bit
accumulator of `decodeValueAsUInt16`, which keeps only the low two bytes:
the decoded value is `b0 + 256 * b1`, i.e. the full 4-byte little-endian
value reduced modulo `2 ^ 16`, silently ignoring the upper two bytes. -/
theorem decodeValueAsUInt16_four_bytes (b0 b1 b2 b3 : Nat)
    (h0 : b0 < 256) (h1 : b1 < 256) (h2 : b2 < 256) (h3 : b3 < 256) :
    decodeValueAsUInt16 true [b0, b1, b2, b3] = b0 + 256 * b1 ∧
    b0 + 256 * b1 = (b0 + 256 * b1 + 2 ^ 16 * b2 + 2 ^ 24 * b3) % 2 ^ 16 := by
  constructor
  · have e : decodeValueAsUInt16 true [b0, b1, b2, b3]
        = List.foldl (decodeStep 16) 0 [b3, b2, b1, b0] := by
      simp [decodeValueAsUInt16]
    rw [e]
    simp only [List.foldl_cons, List.foldl_nil]
    rw [decodeStep16_eq 0 b3 h3, decodeStep16_eq _ b2 h2, decodeStep16_eq _ b1 h1,
      decodeStep16_eq _ b0 h0]
    omega
  · omega

/-- Witness for C8 at the concrete field bytes `07 01 FF FF`. -/
theorem decodeValueAsUInt16_four_bytes_witness :
    decodeValueAsUInt16 true [7, 1, 255, 255] = 7 + 256 * 1 ∧
    7 + 256 * 1 = (7 + 256 * 1 + 2 ^ 16 * 255 + 2 ^ 24 * 255) % 2 ^ 16 :=
  decodeValueAsUInt16_four_bytes 7 1 255 255 (by decide) (by decide) (by decide) (by decide)

/-- C7 counterexample: with sector index 1 and sector-size exponent 65 the
computed offset wraps modulo `2 ^ 64` to 512, and `NewCompoundFile`
succeeds on a 640-byte source even though the true root sector offset
`512 + 2 ^ 65` lies far beyond it — overflow is not surfaced as a
construction failure. -/
theorem getSectorPosition_overflow_wraps_counterexample :
    getSectorPosition 1 65 = (512 + 1 * 2 ^ 65) % 2 ^ 64 ∧
    getSectorPosition 1 65 ≠ 512 + 1 * 2 ^ 65 ∧
    (NewCompoundFile "overflow.bin" overflowFile).isOk = true ∧
    overflowFile.length = 640 ∧ 640 < 512 + 1 * 2 ^ 65 := by decide

/-- C7 amended: the sector index and the computed offset are unsigned, and
the computation wraps modulo the 64-bit machine word instead of failing:
for every odd sector-size exponent the computed position is exactly
`(512 + sectorID * 2 ^ sectorSize) % 2 ^ 64`. -/
theorem getSectorPosition_wraps_mod_wordsize (sectorID sectorSize : Nat)
    (hodd : sectorSize % 2 = 1) :
    getSectorPosition sectorID sectorSize = (512 + sectorID * 2 ^ sectorSize) % 2 ^ 64 := by
  unfold getSectorPosition
  rw [calcPower_odd 2 sectorSize hodd]
  exact Nat.ModEq.add_left 512 ((Nat.ModEq.refl sectorID).mul (Nat.mod_modEq _ _))

/-- Witness for the amended C7 at sector index 1, exponent 65. -/
theorem getSectorPosition_wraps_mod_wordsize_witness :
    getSectorPosition 1 65 = (512 + 1 * 2 ^ 65) % 2 ^ 64 :=
  getSectorPosition_wraps_mod_wordsize 1 65 (by decide)

/-- The on-disk CLSID bytes of MS Word, used as a concrete 16-byte input. -/
def wordCLSIDBytes : List Nat :=
  [0x06, 0x09, 0x02, 0x00, 0x00, 0x00, 0x00, 0x00,
   0xC0, 0x00, 0x00, 0x00, 0x00, 0x00, 0x00, 0x46]

/-- C3: on every 16-byte input the UUID decoder is independent of the
`littleEndian` flag, and its output is the canonical lowercase
hex-with-dashes rendering with components 1-3 little-endian and
components 4-5 big-endian. -/
theorem decodeValueAsUUID_ignores_flag (littleEndian : Bool) (value : List Nat)
    (hlen : value.length = 16) (hbytes : ∀ b ∈ value, b < 256) :
    decodeValueAsUUID littleEndian value = decodeValueAsUUID (!littleEndian) value ∧
    decodeValueAsUUID littleEndian value = specCanonicalUUID value := by
  have hsub : ∀ o s : Nat, ∀ b ∈ (value.drop o).take s, b < 256 := fun o s b hm =>
    hbytes b (List.mem_of_mem_drop (List.mem_of_mem_take hm))
  have htk : ∀ b ∈ value.take 4, b < 256 := fun b hm => hbytes b (List.mem_of_mem_take hm)
  refine ⟨rfl, ?_⟩
  unfold decodeValueAsUUID specCanonicalUUID
  rw [decodeValueAsUInt64_true_eq _ htk (by simp [hlen]),
    decodeValueAsUInt64_true_eq _ (hsub 4 2) (by simp [hlen]),
    decodeValueAsUInt64_true_eq _ (hsub 6 2) (by simp [hlen]),
    decodeValueAsUInt64_false_eq _ (hsub 8 2) (by simp [hlen]),
    decodeValueAsUInt64_false_eq _ (hsub 10 6) (by simp [hlen])]

/-- Witness for C3 at the Word CLSID bytes with the flag set. -/
theorem decodeValueAsUUID_ignores_flag_witness :
    decodeValueAsUUID true wordCLSIDBytes = decodeValueAsUUID (!true) wordCLSIDBytes ∧
    decodeValueAsUUID true wordCLSIDBytes = specCanonicalUUID wordCLSIDBytes :=
  decodeValueAsUUID_ignores_flag true wordCLSIDBytes (by decide) (by decide)

/-- C10: every header schema entry satisfies `offset + size ≤ 512` and
every directory schema entry satisfies `offset + size ≤ 128`, so on a
handle with a 512-byte header and a 128-byte root entry the two field
accessors slice entirely inside their buffer and return the full field. -/
theorem schema_bounds (cFile : defaultCompoundFile) (name : String)
    (hh : cFile.header.length = 512) (hr : cFile.rootDirectoryEntry.length = 128) :
    (∀ fi, headerMap.lookup name = some fi →
      fi.offset + fi.size ≤ cFile.header.length ∧
      (getValueFromHeader cFile name).length = fi.size) ∧
    (∀ fi, directoryMap.lookup name = some fi →
      fi.offset + fi.size ≤ cFile.rootDirectoryEntry.length ∧
      (getValueFromRootDirectory cFile name).length = fi.size) := by
  constructor
  · intro fi hfi
    have hb : fi.offset + fi.size ≤ 512 := lookup_bound headerMap 512 (by decide) hfi
    have e : getValueFromHeader cFile name = (cFile.header.drop fi.offset).take fi.size := by
      unfold getValueFromHeader
      rw [hfi]
    refine ⟨by omega, ?_⟩
    rw [e]
    simp only [List.length_take, List.length_drop, hh]
    omega
  · intro fi hfi
    have hb : fi.offset + fi.size ≤ 128 := lookup_bound directoryMap 128 (by decide) hfi
    have e : getValueFromRootDirectory cFile name
        = (cFile.rootDirectoryEntry.drop fi.offset).take fi.size := by
      unfold getValueFromRootDirectory
      rw [hfi]
    refine ⟨by omega, ?_⟩
    rw [e]
    simp only [List.length_take, List.length_drop, hr]
    omega

/-- Witness for C10 on the sample handle and the CLSID directory field. -/
theorem schema_bounds_witness :
    80 + 16 ≤ sampleWordHandle.rootDirectoryEntry.length ∧
    (getValueFromRootDirectory sampleWordHandle "CLSID").length = 16 :=
  (schema_bounds sampleWordHandle "CLSID" (by decide) (by decide)).2 ⟨80, 16⟩ (by decide)

/-- C5: on a successfully constructed handle, `GetMimeType` returns the
mapped MIME string when the decoded CLSID is one of the three table keys
and exactly `application/octet-stream` for every other CLSID; it is a
total function on handles, so it can neither fail nor panic. -/
theorem GetMimeType_lookup_or_fallback (fp : String) (content : List Nat)
    (h : defaultCompoundFile) (hok : NewCompoundFile fp content = Except.ok h) :
    (decodeValueAsUUID (isLittleEndian h) (getValueFromRootDirectory h "CLSID") =
        "00020906-0000-0000-c000-000000000046" →
      GetMimeType h = "application/msword") ∧
    (decodeValueAsUUID (isLittleEndian h) (getValueFromRootDirectory h "CLSID") =
        "00020820-0000-0000-c000-000000000046" →
      GetMimeType h = "application/vnd.ms-excel") ∧
    (decodeValueAsUUID (isLittleEndian h) (getValueFromRootDirectory h "CLSID") =
        "00020810-0000-0000-c000-000000000046" →
      GetMimeType h = "application/vnd.ms-excel") ∧
    (decodeValueAsUUID (isLittleEndian h) (getValueFromRootDirectory h "CLSID") ≠
        "00020906-0000-0000-c000-000000000046" →
     decodeValueAsUUID (isLittleEndian h) (getValueFromRootDirectory h "CLSID") ≠
        "00020820-0000-0000-c000-000000000046" →
     decodeValueAsUUID (isLittleEndian h) (getValueFromRootDirectory h "CLSID") ≠
        "00020810-0000-0000-c000-000000000046" →
      GetMimeType h = "application/octet-stream") := by
  set u := decodeValueAsUUID (isLittleEndian h) (getValueFromRootDirectory h "CLSID") with hu
  have hG : GetMimeType h = (match uuidMimeTypeMap.lookup u with
      | some mimeType => mimeType
      | none => "application/octet-stream") := rfl
  refine ⟨?_, ?_, ?_, ?_⟩
  · intro h1
    rw [hG, h1]
    rfl
  · intro h1
    rw [hG, h1]
    rfl
  · intro h1
    rw [hG, h1]
    rfl
  · intro h1 h2 h3
    have e1 : (u == "00020906-0000-0000-c000-000000000046") = false := by simpa using h1
    have e2 : (u == "00020820-0000-0000-c000-000000000046") = false := by simpa using h2
    have e3 : (u == "00020810-0000-0000-c000-000000000046") = false := by simpa using h3
    rw [hG]
    simp [uuidMimeTypeMap, List.lookup_cons, e1, e2, e3]

/-- Witness for C5: the spec's synthetic Word document maps to
`application/msword`. -/
theorem GetMimeType_lookup_or_fallback_witness :
    GetMimeType sampleWordHandle = "application/msword" :=
  (GetMimeType_lookup_or_fallback "sample.doc" sampleWordFile sampleWordHandle
    (by decide)).1 (by decide)

/-- C2 counterexample: the claim says a handle comes back exactly when
the 128-byte read at the computed root-sector offset succeeds.  On a
640-byte source declaring sector-size exponent 63 and sector index 1 the
computed position is `512 + 2 ^ 63`, whose `int64` cast is negative; the
failed `Seek` is ignored and the root entry is read at the stale position
512, so `NewCompoundFile` returns a handle although a 128-byte read at
the computed offset is impossible. -/
theorem NewCompoundFile_stale_seek_counterexample :
    (NewCompoundFile "neg.bin" negOffsetFile).isOk = true ∧
    rootSectorPos negOffsetFile = 512 + 2 ^ 63 ∧
    negOffsetFile.length = 640 ∧
    ¬(rootSectorPos negOffsetFile + 128 ≤ negOffsetFile.length) := by decide

/-- C2 amended: `NewCompoundFile` is all-or-nothing over the position at
which the root read actually happens: it returns a handle exactly when
the 512-byte header read succeeds, the 8-byte identifier matches a valid
magic, the 128-byte read at the effective root position succeeds, and the
type byte there equals 5 — where the effective position is the computed
sector position when that fits a nonnegative `int64`, and otherwise 512
(the position the header read left the file at), because the failed
negative `Seek` has its error discarded.  A source shorter than 512 bytes
always yields an error (the model is a total function on the byte list,
so no out-of-bounds access occurs). -/
theorem NewCompoundFile_all_or_nothing (fp : String) (content : List Nat) :
    ((∃ h, NewCompoundFile fp content = Except.ok h) ↔
      (512 ≤ content.length ∧
       validateFileIdentifier ((content.take 512).take 8) = true ∧
       effectiveRootPos content + 128 ≤ content.length ∧
       content[effectiveRootPos content + 66]? = some 5)) ∧
    (content.length < 512 → ∃ e, NewCompoundFile fp content = Except.error e) := by
  have hP64 : rootSectorPos content < 2 ^ 64 := by
    unfold rootSectorPos getSectorPosition
    exact Nat.mod_lt _ (by norm_num)
  have hseek : seekTo 512 (uint64ToInt64 (rootSectorPos content)) = effectiveRootPos content := by
    unfold seekTo uint64ToInt64 effectiveRootPos
    rw [Nat.mod_eq_of_lt hP64]
    by_cases hc : rootSectorPos content < 2 ^ 63
    · simp only [if_pos hc]
      rw [if_pos (Int.natCast_nonneg _)]
      simp
    · simp only [if_neg hc]
      rw [if_neg (by omega)]
  by_cases h512 : 512 ≤ content.length
  · have hread0 : read content 0 0 512 = Except.ok (content.take 512, 512) := by
      unfold read
      rw [if_pos (show seekTo 0 0 + 512 ≤ content.length by simpa [seekTo] using h512)]
      rfl
    have hNF1 : NewCompoundFile fp content =
        (if !validateFileIdentifier ((content.take 512).take 8) then
          Except.error "Invalid File Identtifier"
        else
          match read content 512 (uint64ToInt64 (rootSectorPos content)) 128 with
          | Except.error e => Except.error e
          | Except.ok (rootBytes, _) =>
            if !validateRootDirectoryType ((rootBytes.drop 66).take 1) then
              Except.error "Invalid type found while validating root directory. Not a compound file"
            else
              Except.ok ⟨fp, content.take 512, rootBytes⟩) := by
      unfold NewCompoundFile
      rw [hread0]
      rfl
    by_cases hv : validateFileIdentifier ((content.take 512).take 8) = true
    · by_cases hp : effectiveRootPos content + 128 ≤ content.length
      · have hread1 : read content 512 (uint64ToInt64 (rootSectorPos content)) 128
            = Except.ok ((content.drop (effectiveRootPos content)).take 128,
                effectiveRootPos content + 128) := by
          unfold read
          rw [hseek, if_pos hp]
        have hNF2 : NewCompoundFile fp content =
            (if !validateRootDirectoryType
                ((((content.drop (effectiveRootPos content)).take 128).drop 66).take 1) then
              Except.error "Invalid type found while validating root directory. Not a compound file"
            else
              Except.ok ⟨fp, content.take 512,
                (content.drop (effectiveRootPos content)).take 128⟩) := by
          rw [hNF1, hv, Bool.not_true, if_neg Bool.false_ne_true, hread1]
        have hidx : effectiveRootPos content + 66 < content.length := by omega
        have hsome : ∃ v, content[effectiveRootPos content + 66]? = some v :=
          ⟨_, List.getElem?_eq_getElem hidx⟩
        have hhead : ((((content.drop (effectiveRootPos content)).take 128).drop 66).take 1).headD 0
            = (content[effectiveRootPos content + 66]?).getD 0 := by
          rw [headD_take, List.headD_eq_head?_getD, List.head?_eq_getElem?, List.getElem?_drop,
            show 66 + 0 = 66 from rfl, List.getElem?_take_of_lt (by omega : (66 : Nat) < 128),
            List.getElem?_drop]
        by_cases ht : (content[effectiveRootPos content + 66]?).getD 0 = 5
        · have hvt : validateRootDirectoryType
              ((((content.drop (effectiveRootPos content)).take 128).drop 66).take 1) = true := by
            unfold validateRootDirectoryType
            rw [hhead]
            simp [ht]
          have hNF3 : NewCompoundFile fp content
              = Except.ok ⟨fp, content.take 512,
                  (content.drop (effectiveRootPos content)).take 128⟩ := by
            rw [hNF2, hvt, Bool.not_true, if_neg Bool.false_ne_true]
          refine ⟨⟨fun _ => ⟨h512, hv, hp, ?_⟩, fun _ => ⟨_, hNF3⟩⟩,
            fun hlt => absurd h512 (by omega)⟩
          obtain ⟨v, hveq⟩ := hsome
          have h5 : v = 5 := by
            rw [hveq] at ht
            simpa using ht
          rw [hveq, h5]
        · have hvt : validateRootDirectoryType
              ((((content.drop (effectiveRootPos content)).take 128).drop 66).take 1) = false := by
            unfold validateRootDirectoryType
            rw [hhead]
            simp [ht]
          have hNF3 : NewCompoundFile fp content
              = Except.error "Invalid type found while validating root directory. Not a compound file" := by
            rw [hNF2, hvt, Bool.not_false, if_pos rfl]
          refine ⟨⟨fun he => ?_, fun hr => ?_⟩, fun hlt => absurd h512 (by omega)⟩
          · obtain ⟨h, hok⟩ := he
            rw [hNF3] at hok
            simp at hok
          · exact absurd
              (by rw [hr.2.2.2]; rfl : (content[effectiveRootPos content + 66]?).getD 0 = 5) ht
      · have hread1 : read content 512 (uint64ToInt64 (rootSectorPos content)) 128
            = Except.error "Unable to read. File may be corrupted or not a compound file" := by
          unfold read
          rw [hseek, if_neg (by omega)]
        have hNF2 : NewCompoundFile fp content
            = Except.error "Unable to read. File may be corrupted or not a compound file" := by
          rw [hNF1, hv, Bool.not_true, if_neg Bool.false_ne_true, hread1]
        refine ⟨⟨fun he => ?_, fun hr => absurd hr.2.2.1 hp⟩, fun hlt => absurd h512 (by omega)⟩
        obtain ⟨h, hok⟩ := he
        rw [hNF2] at hok
        simp at hok
    · have hv2 : validateFileIdentifier ((content.take 512).take 8) = false := by
        simpa using hv
      have hNF2 : NewCompoundFile fp content = Except.error "Invalid File Identtifier" := by
        rw [hNF1, hv2, Bool.not_false, if_pos rfl]
      refine ⟨⟨fun he => ?_, fun hr => absurd hr.2.1 hv⟩, fun hlt => absurd h512 (by omega)⟩
      obtain ⟨h, hok⟩ := he
      rw [hNF2] at hok
      simp at hok
  · have hread0 : read content 0 0 512
        = Except.error "Unable to read. File may be corrupted or not a compound file" := by
      unfold read
      rw [if_neg (show ¬(seekTo 0 0 + 512 ≤ content.length) by simp [seekTo]; omega)]
    have hNF : NewCompoundFile fp content
        = Except.error "Unable to read. File may be corrupted or not a compound file" := by
      unfold NewCompoundFile
      rw [hread0]
    refine ⟨⟨fun he => ?_, fun hr => absurd hr.1 h512⟩, fun _ => ⟨_, hNF⟩⟩
    obtain ⟨h, hok⟩ := he
    rw [hNF] at hok
    simp at hok

/-- Witness for the amended C2: the synthetic sample satisfies all four
conditions, so construction succeeds; and a 100-byte source errors. -/
theorem NewCompoundFile_all_or_nothing_witness :
    (∃ h, NewCompoundFile "sample.doc" sampleWordFile = Except.ok h) ∧
    (∃ e, NewCompoundFile "short.bin" (List.replicate 100 0) = Except.error e) :=
  ⟨(NewCompoundFile_all_or_nothing "sample.doc" sampleWordFile).1.mpr (by decide),
   (NewCompoundFile_all_or_nothing "short.bin" (List.replicate 100 0)).2 (by decide)⟩

end Msgime
